import Mathlib

/- Verification of the document vectorization and job queue services
   (src/backend/src/services/vectorService.ts and queueService.ts).

   Texts are modelled as `List Char` (JavaScript strings; all test inputs are
   ASCII so code units and scalar values coincide), JavaScript numbers used as
   array indices and counters as `Nat`/`Int`, and floating point values as `ℝ`
   (real arithmetic; JavaScript division by zero produces NaN/Infinity, which
   the spec explicitly allows to be treated as an implementation-defined value,
   modelled here by real-field division where x / 0 = 0). -/

namespace ArgCode

/-! ## Configuration constants (vectorService.ts lines 5-7) -/

def CHUNK_SIZE : Nat := 1000
def CHUNK_OVERLAP : Nat := 200
def EMBEDDING_DIMENSION : Nat := 1536

/-! ## JavaScript string primitives used by splitText -/

/-- Whitespace characters recognised by JavaScript `String.prototype.trim`
and the regex class `\s` (ASCII subset plus NBSP, line/paragraph separator,
BOM; the inputs in this development are ASCII). -/
def isJsWhitespace (c : Char) : Bool :=
  c = ' ' || c = '\t' || c = '\n' || c = '\r' ||
  c = Char.ofNat 11 || c = Char.ofNat 12 || c = Char.ofNat 0xa0 ||
  c = Char.ofNat 0x2028 || c = Char.ofNat 0x2029 || c = Char.ofNat 0xfeff

/-- JavaScript `text.trim()`: strip whitespace from both ends. -/
def jsTrim (t : List Char) : List Char :=
  ((t.dropWhile isJsWhitespace).reverse.dropWhile isJsWhitespace).reverse

/-- JavaScript `text.slice(s, e)` for `0 ≤ s ≤ e` (the only shapes reached in
`splitText`): characters from position `s` up to, but not including, `e`,
clamped to the text length. -/
def jsSlice (t : List Char) (s e : Nat) : List Char :=
  (t.drop s).take (e - s)

/-- JavaScript `text.lastIndexOf(c, fromIndex)`: the greatest position
`j ≤ fromIndex` (clamped to the last valid index) holding character `c`,
or `-1` when there is none. -/
def lastIndexOf (t : List Char) (c : Char) (fromIndex : Nat) : Int :=
  match ((List.range (min (fromIndex + 1) t.length)).filter
      (fun j => t.get? j = some c)).getLast? with
  | some j => (j : Int)
  | none => -1

/-! ## VectorService.splitText (vectorService.ts lines 43-69) -/

/-- The boundary-snapping candidate of one loop iteration:
`Math.max(lastPeriod, lastNewline, lastSpace)` searched from
`end = start + CHUNK_SIZE` (vectorService.ts lines 54-58). -/
def breakPoint (t : List Char) (s : Nat) : Int :=
  max (lastIndexOf t '.' (s + CHUNK_SIZE))
    (max (lastIndexOf t '\n' (s + CHUNK_SIZE)) (lastIndexOf t ' ' (s + CHUNK_SIZE)))

/-- The window end chosen by one loop iteration starting at offset `s`:
`end = start + CHUNK_SIZE`, snapped to `breakPoint + 1` when the window does
not reach the end of the text and the break point lies beyond
`start + CHUNK_SIZE * 0.5` (vectorService.ts lines 50-62). -/
def splitEnd (t : List Char) (s : Nat) : Nat :=
  if s + CHUNK_SIZE < t.length then
    if breakPoint t s > (s : Int) + ((CHUNK_SIZE / 2 : Nat) : Int) then
      (breakPoint t s).toNat + 1
    else s + CHUNK_SIZE
  else s + CHUNK_SIZE

/-- The next loop offset: `start = end - CHUNK_OVERLAP` (line 65). -/
def splitNextStart (t : List Char) (s : Nat) : Nat :=
  splitEnd t s - CHUNK_OVERLAP

/-- Proposition: the iteration starting at `s` snaps its window end to a
break point (the condition of lines 53 and 59). -/
def snapOccurs (t : List Char) (s : Nat) : Prop :=
  s + CHUNK_SIZE < t.length ∧
    breakPoint t s > (s : Int) + ((CHUNK_SIZE / 2 : Nat) : Int)

instance (t : List Char) (s : Nat) : Decidable (snapOccurs t s) := by
  unfold snapOccurs; infer_instance

/-- The while loop of `splitText` (lines 49-66), written with a fuel
parameter so the recursion is structural; `splitTextGo_fuel_eq` below shows
the result does not depend on the fuel once it exceeds the remaining length,
so `t.length + 1` units of fuel compute the loop's true result. -/
def splitTextGo (t : List Char) : Nat → Nat → List (List Char)
  | 0, _ => []
  | fuel + 1, s =>
    if s < t.length then
      jsTrim (jsSlice t s (splitEnd t s)) :: splitTextGo t fuel (splitNextStart t s)
    else []

/-- VectorService.splitText (lines 43-69): empty input yields no chunks,
otherwise run the chunking loop and drop chunks that trimmed to empty. -/
def splitText (t : List Char) : List (List Char) :=
  if t.length = 0 then []
  else (splitTextGo t (t.length + 1) 0).filter (fun c => c.length > 0)

/-! ## VectorService.generateMockEmbedding (vectorService.ts lines 92-121) -/

/-- JavaScript regex test `/\d/.test(text)`. -/
def hasNumbers (t : List Char) : Bool :=
  t.any (fun c => '0' ≤ c && c ≤ '9')

/-- JavaScript regex test `/[A-Z]/.test(text)`. -/
def hasUpperCase (t : List Char) : Bool :=
  t.any (fun c => 'A' ≤ c && c ≤ 'Z')

/-- JavaScript regex test `/[.,!?;:]/.test(text)`. -/
def hasPunctuation (t : List Char) : Bool :=
  t.any (fun c => c = '.' || c = ',' || c = '!' || c = '?' || c = ';' || c = ':')

/-- Number of maximal whitespace runs in the text; `inRun` records whether the
previous character was whitespace. -/
def wsRunCount : List Char → Bool → Nat
  | [], _ => 0
  | c :: rest, inRun =>
    if isJsWhitespace c then (if inRun then 0 else 1) + wsRunCount rest true
    else wsRunCount rest false

/-- JavaScript `text.split(/\s+/).length`: splitting at each maximal
whitespace run produces one more field than there are runs (a leading or
trailing run contributes an empty field, exactly as in JavaScript). -/
def wordCount (t : List Char) : Nat := wsRunCount t false + 1

/-- The character-derived layer of the mock embedding (lines 94-100): a
1536-slot array, slot `i` holding `sin(charCode(i) * (i + 1)) * 0.1` for
positions inside the text and `0` elsewhere. -/
noncomputable def mockCharLayer (t : List Char) : List ℝ :=
  (List.range EMBEDDING_DIMENSION).map (fun i =>
    match t.get? i with
    | some c => Real.sin ((c.toNat : ℝ) * ((i : ℝ) + 1)) * 0.1
    | none => 0)

/-- The mock embedding before normalization: the character layer with the
first five slots overwritten by text features (lines 111-116). -/
noncomputable def mockUnnormalized (t : List Char) : List ℝ :=
  (((((mockCharLayer t).set 0 (Real.tanh ((t.length : ℝ) / 1000))).set 1
      (Real.tanh ((wordCount t : ℝ) / 100))).set 2
      (if hasNumbers t then (0.5 : ℝ) else -0.5)).set 3
      (if hasUpperCase t then (0.5 : ℝ) else -0.5)).set 4
      (if hasPunctuation t then (0.5 : ℝ) else -0.5)

/-- The reduce on line 119: `embedding.reduce((sum, val) => sum + val * val, 0)`. -/
noncomputable def sumSq (l : List ℝ) : ℝ :=
  l.foldl (fun s v => s + v * v) 0

/-- The norm computed on line 119. -/
noncomputable def mockNorm (t : List Char) : ℝ :=
  Real.sqrt (sumSq (mockUnnormalized t))

/-- VectorService.generateMockEmbedding (lines 92-121): the feature vector,
L2-normalized, each slot left at `0` when the norm is not positive. -/
noncomputable def generateMockEmbedding (t : List Char) : List ℝ :=
  (mockUnnormalized t).map (fun v => if mockNorm t > 0 then v / mockNorm t else 0)

/-! ## VectorService.generateEmbedding (vectorService.ts lines 72-89) -/

/-- Outcome of one call to the external embedding API: either a response
whose `data[0]?.embedding` is the given optional vector, or a thrown error
(network, quota, malformed response). -/
inductive EmbedOutcome
  | api (embedding : Option (List ℝ))
  | threw

/-- VectorService.generateEmbedding (lines 72-89): when no client is
configured, return the mock embedding; on an API response return
`data[0]?.embedding || null`; on a thrown error fall back to the mock
embedding (the catch branch, line 87). -/
noncomputable def generateEmbedding (clientPresent : Bool) (o : EmbedOutcome)
    (t : List Char) : Option (List ℝ) :=
  if clientPresent then
    match o with
    | .api e => e
    | .threw => some (generateMockEmbedding t)
  else some (generateMockEmbedding t)

/-! ## VectorStore state (vectorService.ts lines 27-39 and the prisma table) -/

/-- A row of the durable `documentChunk` table as created by
`saveChunkVector` (lines 161-170); the commented-out `embedding` column is
absent, so the durable tier stores no vector. -/
structure ChunkRow where
  document_id : String
  content : List Char
  page_number : Option Nat
  chunk_index : Nat
  token_count : Nat
deriving DecidableEq

/-- An entry of the in-process vector map (interface MemoryVector,
lines 28-37). -/
structure MemoryVector where
  id : String
  document_id : String
  content : List Char
  embedding : List ℝ
  page_number : Option Nat
  chunk_index : Nat
  token_count : Nat
  created_at : Nat

/-- The storage state of the vector service: the durable `documentChunk`
table (insertion order) and the in-process `memoryVectors` map (insertion
order, keyed by string). -/
structure VectorState where
  durableChunks : List ChunkRow
  memoryVectors : List (String × MemoryVector)

/-- The key `${documentId}_chunk_${chunkIndex}` (lines 175, 191, 264). -/
def vectorKey (documentId : String) (chunkIndex : Nat) : String :=
  documentId ++ "_chunk_" ++ toString chunkIndex

/-- JavaScript `Map.prototype.set`: replace in place when the key exists,
otherwise append (insertion order preserved). -/
def mapSet (m : List (String × MemoryVector)) (k : String) (v : MemoryVector) :
    List (String × MemoryVector) :=
  if m.any (fun p => p.1 = k) then m.map (fun p => if p.1 = k then (k, v) else p)
  else m ++ [(k, v)]

/-- JavaScript `Map.prototype.get` as an `Option`. -/
def mapGet (m : List (String × MemoryVector)) (k : String) : Option MemoryVector :=
  (m.find? (fun p => p.1 = k)).map Prod.snd

/-- JavaScript `x || null` / `x || undefined` on an optional number:
`0`, `null` and `undefined` all collapse to none. -/
def jsFalsyToNone (p : Option Nat) : Option Nat :=
  match p with
  | some n => if n = 0 then none else some n
  | none => none

/-- The memory-storage branch of `saveChunkVector` (lines 175-187 and
191-203): build a MemoryVector and `set` it under its key. -/
def memoryStoreVector (st : VectorState) (documentId : String) (content : List Char)
    (embedding : List ℝ) (chunkIndex : Nat) (pageNumber : Option Nat) (now : Nat) :
    VectorState :=
  let mv : MemoryVector :=
    { id := vectorKey documentId chunkIndex
      document_id := documentId
      content := content
      embedding := embedding
      page_number := jsFalsyToNone pageNumber
      chunk_index := chunkIndex
      token_count := (content.length + 3) / 4
      created_at := now }
  { st with memoryVectors := mapSet st.memoryVectors (vectorKey documentId chunkIndex) mv }

/-- VectorService.saveChunkVector (lines 152-205). `prismaActive` is whether
the durable client exists; `prismaOk` is whether its `create` call succeeds
on this invocation; `now` models `new Date()`. On durable success only the
durable row is written (the vector is dropped, since the embedding column is
commented out); on durable failure or absence the in-process map is written.
Every branch reports success. -/
def saveChunkVector (prismaActive prismaOk : Bool) (st : VectorState)
    (documentId : String) (content : List Char) (embedding : List ℝ)
    (chunkIndex : Nat) (pageNumber : Option Nat) (now : Nat) : VectorState × Bool :=
  if prismaActive then
    if prismaOk then
      ({ st with durableChunks := st.durableChunks ++
          [{ document_id := documentId
             content := content
             page_number := jsFalsyToNone pageNumber
             chunk_index := chunkIndex
             token_count := (content.length + 3) / 4 }] }, true)
    else (memoryStoreVector st documentId content embedding chunkIndex pageNumber now, true)
  else (memoryStoreVector st documentId content embedding chunkIndex pageNumber now, true)

/-! ## Similarity search (vectorService.ts lines 207-335) -/

/-- VectorService.cosineSimilarity (lines 208-224): `0` on mismatched
lengths, otherwise `dot / (sqrt normA * sqrt normB)` (real division; a zero
denominator yields `0`, the value the spec allows for this case). -/
noncomputable def cosineSimilarity (a b : List ℝ) : ℝ :=
  if a.length ≠ b.length then 0
  else ((a.zip b).map (fun p => p.1 * p.2)).sum /
    (Real.sqrt ((a.map (fun v => v * v)).sum) * Real.sqrt ((b.map (fun v => v * v)).sum))

/-- One search result (the element shape of lines 246-252). -/
structure SearchResult where
  content : List Char
  similarity : ℝ
  document_id : String
  chunk_index : Nat
  page_number : Option Nat

/-- The ranking step shared by both search paths (lines 289-291 and
332-334): stable sort descending by similarity, then take the first
`limit` results. -/
noncomputable def rankResults (rs : List SearchResult) (limit : Nat) :
    List SearchResult :=
  (rs.mergeSort (fun a b => decide (b.similarity ≤ a.similarity))).take limit

/-- The `where documentId ? { document_id } : {}` filter (line 258) and the
`if (documentId && vector.document_id !== documentId) continue` guard
(line 320): an absent or empty (falsy) filter keeps every row. -/
def docFilterKeeps (docFilter : Option String) (d : String) : Bool :=
  match docFilter with
  | none => true
  | some f => f = "" || d = f

/-- The `orderBy: { chunk_index: 'asc' }` clause (line 259), as a stable
ascending sort. -/
def sortByChunkIndexRows (l : List ChunkRow) : List ChunkRow :=
  l.mergeSort (fun a b => a.chunk_index ≤ b.chunk_index)

/-- The durable-backend scoring loop of `semanticSearch` (lines 257-277):
fetch the (filtered, chunk_index-ordered) durable rows and score exactly
those whose `(documentId, chunkIndex)` key has an entry in the in-process
vector map. -/
noncomputable def scoreDurable (st : VectorState) (queryEmbedding : List ℝ)
    (docFilter : Option String) : List SearchResult :=
  (sortByChunkIndexRows (st.durableChunks.filter
      (fun c => docFilterKeeps docFilter c.document_id))).filterMap
    (fun c => (mapGet st.memoryVectors (vectorKey c.document_id c.chunk_index)).map
      (fun mv =>
        { content := c.content
          similarity := cosineSimilarity queryEmbedding mv.embedding
          document_id := c.document_id
          chunk_index := c.chunk_index
          page_number := jsFalsyToNone c.page_number }))

/-- VectorService.memorySemanticSearch (lines 300-335): score every entry of
the in-process map passing the document filter, then rank. -/
noncomputable def memorySemanticSearch (st : VectorState) (queryEmbedding : List ℝ)
    (docFilter : Option String) (limit : Nat) : List SearchResult :=
  rankResults ((st.memoryVectors.map Prod.snd).filterMap (fun v =>
    if docFilterKeeps docFilter v.document_id then
      some { content := v.content
             similarity := cosineSimilarity queryEmbedding v.embedding
             document_id := v.document_id
             chunk_index := v.chunk_index
             page_number := v.page_number }
    else none)) limit

/-- VectorService.semanticSearch (lines 227-297). `clientPresent` and
`queryOutcome` drive the query embedding (§ generateEmbedding); a null query
embedding returns no results; with an active durable backend whose query
succeeds, rank the durable-scored results; on durable failure or absence,
use the in-process search. -/
noncomputable def semanticSearch (clientPresent : Bool) (queryOutcome : EmbedOutcome)
    (prismaActive prismaOk : Bool) (st : VectorState) (query : List Char)
    (docFilter : Option String) (limit : Nat) : List SearchResult :=
  match generateEmbedding clientPresent queryOutcome query with
  | none => []
  | some queryEmbedding =>
    if prismaActive then
      if prismaOk then rankResults (scoreDurable st queryEmbedding docFilter) limit
      else memorySemanticSearch st queryEmbedding docFilter limit
    else memorySemanticSearch st queryEmbedding docFilter limit

/-! ## getDocumentChunks and deleteDocumentVectors (lines 338-426) -/

/-- The chunk record returned by `getDocumentChunks`. -/
structure ChunkInfo where
  content : List Char
  chunk_index : Nat
  page_number : Option Nat
  token_count : Option Nat
deriving DecidableEq

/-- The memory branch of `getDocumentChunks` (lines 365-374 and 378-387):
filter the map's values by document, sort ascending by chunk index. -/
def memoryGetDocumentChunks (st : VectorState) (documentId : String) :
    List ChunkInfo :=
  (((st.memoryVectors.map Prod.snd).filter
      (fun v => v.document_id = documentId)).mergeSort
      (fun a b => a.chunk_index ≤ b.chunk_index)).map
    (fun v => { content := v.content
                chunk_index := v.chunk_index
                page_number := v.page_number
                token_count := some v.token_count })

/-- VectorService.getDocumentChunks (lines 338-389): durable query when the
client exists and the query succeeds (with `|| undefined` collapsing falsy
page numbers and token counts), in-process fallback otherwise. -/
def getDocumentChunks (prismaActive prismaOk : Bool) (st : VectorState)
    (documentId : String) : List ChunkInfo :=
  if prismaActive then
    if prismaOk then
      (sortByChunkIndexRows (st.durableChunks.filter
          (fun c => c.document_id = documentId))).map
        (fun c => { content := c.content
                    chunk_index := c.chunk_index
                    page_number := jsFalsyToNone c.page_number
                    token_count := jsFalsyToNone (some c.token_count) })
    else memoryGetDocumentChunks st documentId
  else memoryGetDocumentChunks st documentId

/-- The in-process cleanup loop shared by every branch of
`deleteDocumentVectors` (lines 400-404, 410-414, 419-423). -/
def memoryDeleteDoc (m : List (String × MemoryVector)) (documentId : String) :
    List (String × MemoryVector) :=
  m.filter (fun p => p.2.document_id ≠ documentId)

/-- VectorService.deleteDocumentVectors (lines 392-426): on durable success
delete the document's rows from both tiers; on durable failure or absence
clean only the in-process map; every branch reports success. -/
def deleteDocumentVectors (prismaActive prismaOk : Bool) (st : VectorState)
    (documentId : String) : VectorState × Bool :=
  if prismaActive then
    if prismaOk then
      ({ durableChunks := st.durableChunks.filter (fun c => c.document_id ≠ documentId)
         memoryVectors := memoryDeleteDoc st.memoryVectors documentId }, true)
    else ({ st with memoryVectors := memoryDeleteDoc st.memoryVectors documentId }, true)
  else ({ st with memoryVectors := memoryDeleteDoc st.memoryVectors documentId }, true)

/-! ## QueueService.processJob (queueService.ts lines 185-276) -/

/-- One file descriptor of a job payload (queueService.ts lines 72-78). -/
structure FileDescriptor where
  fileId : String
  originalName : String
  filePath : String
  fileSize : Nat
  mimeType : String
deriving DecidableEq

/-- The document record fields used by the per-file result (lines 227-232). -/
structure DocumentRecord where
  id : String
  file_id : String
  page_count : Nat
  file_size : Nat
deriving DecidableEq

/-- Outcome of the fallible body of one per-file iteration (the try block,
lines 198-255): either the external collaborators succeed, yielding the
created document record and the optional vectorization flag, or some step
throws with a message. -/
inductive FileOutcome
  | ok (document : DocumentRecord) (vectorized : Option Bool)
  | threw (message : String)
deriving DecidableEq

/-- One entry of the `results` array (lines 223-233 and 259-264). -/
structure FileResult where
  fileId : String
  originalName : String
  status : String
  document : Option DocumentRecord
  vectorized : Option Bool
  error : Option String
deriving DecidableEq

/-- One iteration of the per-file loop: a successful body records a
`completed` entry, a thrown body is caught (lines 257-265) and records a
`failed` entry with the error message; either way the loop moves on. -/
def processFile (f : FileDescriptor) (o : FileOutcome) : FileResult :=
  match o with
  | .ok doc vec =>
    { fileId := f.fileId, originalName := f.originalName, status := "completed"
      document := some doc, vectorized := vec, error := none }
  | .threw msg =>
    { fileId := f.fileId, originalName := f.originalName, status := "failed"
      document := none, vectorized := none, error := some msg }

/-- JavaScript `Math.round((i / n) * 100)` for `0 ≤ i ≤ n`, `n > 0`
(line 196), as round-half-up on exact rationals. -/
def jsRound100 (i n : Nat) : Nat := (200 * i + n) / (2 * n)

/-- The aggregated job result (lines 269-275). -/
structure JobResult where
  batchId : Option String
  totalFiles : Nat
  processedFiles : Nat
  failedFiles : Nat
  results : List FileResult
deriving DecidableEq

/-- QueueService.processJob (lines 185-276): iterate the files in order,
reporting `round(i / total * 100)` before each file and `100` after the
loop; `env i` is the outcome of file `i`'s fallible body. Returns the
aggregated result together with the sequence of values passed to the
progress callback. -/
def processJob (batchId : Option String) (files : List FileDescriptor)
    (env : Nat → FileOutcome) : JobResult × List Nat :=
  let results := files.enum.map (fun p => processFile p.2 (env p.1))
  ({ batchId := batchId
     totalFiles := files.length
     processedFiles := (results.filter (fun r => r.status = "completed")).length
     failedFiles := (results.filter (fun r => r.status = "failed")).length
     results := results },
   (List.range files.length).map (fun i => jsRound100 i files.length) ++ [100])

/-! ## QueueService in-process queue state and stats (queueService.ts) -/

/-- The status field of a memory job (line 45). -/
inductive JobStatus
  | waiting
  | active
  | completed
  | failed
deriving DecidableEq

/-- An in-process job record (interface MemoryJob, lines 42-51), keeping the
fields the stats and the modelled operations read. -/
structure MemoryJob where
  id : String
  status : JobStatus
  progress : Nat
  updatedAt : Nat
deriving DecidableEq

/-- The stats record of `getQueueStats` (lines 418-424). -/
structure QueueStats where
  waiting : Nat
  active : Nat
  completed : Nat
  failed : Nat
  total : Nat
deriving DecidableEq

/-- One loop step of the in-process stats loop (lines 449-452):
`stats[job.status]++; stats.total++`. -/
def statTick (s : QueueStats) (j : JobStatus) : QueueStats :=
  match j with
  | .waiting => { s with waiting := s.waiting + 1, total := s.total + 1 }
  | .active => { s with active := s.active + 1, total := s.total + 1 }
  | .completed => { s with completed := s.completed + 1, total := s.total + 1 }
  | .failed => { s with failed := s.failed + 1, total := s.total + 1 }

/-- QueueService.getQueueStats, in-process branch (lines 446-454): fold the
per-status tick over every job in the table. -/
def getQueueStats (jobs : List MemoryJob) : QueueStats :=
  jobs.foldl (fun s j => statTick s j.status) ⟨0, 0, 0, 0, 0⟩

/-- The operations that mutate the in-process job table: `addMemoryJob`
appends a waiting job (lines 127-147); the drain loop marks a job active
(lines 160-161), then completed with progress 100 (lines 168-171) or failed
(lines 174-176); `cancelJob` removes a job only while it is waiting
(lines 382-390); `cleanupJobs` removes completed jobs older than the cutoff
(lines 410-414). -/
inductive QueueOp
  | submit (id : String) (now : Nat)
  | activate (id : String) (now : Nat)
  | complete (id : String) (now : Nat)
  | fail (id : String) (now : Nat)
  | cancel (id : String)
  | cleanup (cutoff : Nat)

/-- Apply one queue operation to the in-process job table. -/
def applyOp (jobs : List MemoryJob) : QueueOp → List MemoryJob
  | .submit id now =>
    jobs ++ [{ id := id, status := .waiting, progress := 0, updatedAt := now }]
  | .activate id now =>
    jobs.map (fun j => if j.id = id ∧ j.status = .waiting then
      { j with status := .active, updatedAt := now } else j)
  | .complete id now =>
    jobs.map (fun j => if j.id = id ∧ j.status = .active then
      { j with status := .completed, progress := 100, updatedAt := now } else j)
  | .fail id now =>
    jobs.map (fun j => if j.id = id ∧ j.status = .active then
      { j with status := .failed, updatedAt := now } else j)
  | .cancel id =>
    jobs.filter (fun j => ¬ (j.id = id ∧ j.status = .waiting))
  | .cleanup cutoff =>
    jobs.filter (fun j => ¬ (j.status = .completed ∧ j.updatedAt < cutoff))

/-! ## Concrete sample inputs used by witness statements -/

/-- A concrete two-file batch. -/
def sampleFiles : List FileDescriptor :=
  [{ fileId := "f1", originalName := "a.txt", filePath := "/a", fileSize := 1,
     mimeType := "text/plain" },
   { fileId := "f2", originalName := "b.pdf", filePath := "/b", fileSize := 2,
     mimeType := "application/pdf" }]

/-- A concrete environment in which file 0 succeeds and every later file's
body throws. -/
def sampleEnv : Nat → FileOutcome := fun i =>
  if i = 0 then
    .ok { id := "doc1", file_id := "f1", page_count := 1, file_size := 1 } (some true)
  else .threw "boom"

/-! ## Progress and termination lemmas for the chunking loop -/

theorem splitEnd_no_snap {t : List Char} {s : Nat} (h : ¬ snapOccurs t s) :
    splitEnd t s = s + CHUNK_SIZE := by
  unfold splitEnd
  unfold snapOccurs at h
  by_cases h1 : s + CHUNK_SIZE < t.length
  · rw [if_pos h1]
    have h2 : ¬ breakPoint t s > (s : Int) + ((CHUNK_SIZE / 2 : Nat) : Int) :=
      fun h2 => h ⟨h1, h2⟩
    rw [if_neg h2]
  · rw [if_neg h1]

theorem splitEnd_snap {t : List Char} {s : Nat} (h : snapOccurs t s) :
    splitEnd t s = (breakPoint t s).toNat + 1 ∧
      s + CHUNK_SIZE / 2 + 1 ≤ (breakPoint t s).toNat := by
  obtain ⟨h1, h2⟩ := h
  constructor
  · unfold splitEnd
    rw [if_pos h1, if_pos h2]
  · omega

theorem splitNextStart_progress {t : List Char} {s : Nat} :
    s + (CHUNK_SIZE / 2 - CHUNK_OVERLAP + 1) ≤ splitNextStart t s := by
  unfold splitNextStart
  by_cases h : snapOccurs t s
  · obtain ⟨he, hb⟩ := splitEnd_snap h
    rw [he]
    unfold CHUNK_SIZE CHUNK_OVERLAP at *
    omega
  · rw [splitEnd_no_snap h]
    unfold CHUNK_SIZE CHUNK_OVERLAP
    omega

/-- Fuel irrelevance: any fuel at least the remaining length computes the
loop's result, so the loop terminates. -/
theorem splitTextGo_fuel_eq (t : List Char) :
    ∀ f1 : Nat, ∀ f2 s : Nat, t.length - s ≤ f1 → t.length - s ≤ f2 →
      splitTextGo t f1 s = splitTextGo t f2 s := by
  intro f1
  induction f1 with
  | zero =>
    intro f2 s h1 _
    have hs : ¬ s < t.length := by omega
    cases f2 with
    | zero => rfl
    | succ f2 => simp [splitTextGo, hs]
  | succ f1 ih =>
    intro f2 s h1 h2
    by_cases hs : s < t.length
    · cases f2 with
      | zero => omega
      | succ f2 =>
        simp only [splitTextGo, hs, if_true]
        have hprog := @splitNextStart_progress t s
        have : t.length - splitNextStart t s ≤ f1 := by
          unfold CHUNK_SIZE CHUNK_OVERLAP at hprog; omega
        have : t.length - splitNextStart t s ≤ f2 := by
          unfold CHUNK_SIZE CHUNK_OVERLAP at hprog; omega
        rw [ih f2 (splitNextStart t s) (by assumption) (by assumption)]
    · cases f2 with
      | zero => simp [splitTextGo, hs]
      | succ f2 => simp [splitTextGo, hs]

/-! ## Lemmas about the mock embedding -/

theorem length_mockCharLayer (t : List Char) :
    (mockCharLayer t).length = EMBEDDING_DIMENSION := by
  unfold mockCharLayer
  simp

theorem length_mockUnnormalized (t : List Char) :
    (mockUnnormalized t).length = EMBEDDING_DIMENSION := by
  unfold mockUnnormalized
  simp [length_mockCharLayer]

theorem length_generateMockEmbedding (t : List Char) :
    (generateMockEmbedding t).length = EMBEDDING_DIMENSION := by
  unfold generateMockEmbedding
  simp [length_mockUnnormalized]

theorem sumSq_eq_sum_map (l : List ℝ) :
    sumSq l = (l.map (fun v => v * v)).sum := by
  suffices h : ∀ a : ℝ, l.foldl (fun s v => s + v * v) a = a + (l.map (fun v => v * v)).sum by
    have := h 0
    unfold sumSq
    rw [this, zero_add]
  induction l with
  | nil => intro a; simp
  | cons x xs ih =>
    intro a
    simp only [List.foldl_cons, List.map_cons, List.sum_cons, ih]
    ring

theorem sumSq_nonneg (l : List ℝ) : 0 ≤ sumSq l := by
  rw [sumSq_eq_sum_map]
  apply List.sum_nonneg
  intro x hx
  obtain ⟨v, _, rfl⟩ := List.mem_map.mp hx
  exact mul_self_nonneg v

theorem sq_le_sumSq {l : List ℝ} {x : ℝ} (hx : x ∈ l) : x * x ≤ sumSq l := by
  rw [sumSq_eq_sum_map]
  refine List.single_le_sum ?_ _ (List.mem_map_of_mem _ hx)
  intro y hy
  obtain ⟨v, _, rfl⟩ := List.mem_map.mp hy
  exact mul_self_nonneg v

theorem sum_map_div (l : List ℝ) (d : ℝ) :
    (l.map (fun v => v / d)).sum = l.sum / d := by
  induction l with
  | nil => simp
  | cons x xs ih => simp [ih, add_div]

theorem sumSq_map_div (l : List ℝ) (d : ℝ) :
    sumSq (l.map (fun v => v / d)) = sumSq l / (d * d) := by
  rw [sumSq_eq_sum_map, sumSq_eq_sum_map, List.map_map]
  have h1 : ((fun v : ℝ => v * v) ∘ fun v => v / d) = fun v => (v * v) / (d * d) := by
    funext v
    simp only [Function.comp]
    rw [div_mul_div_comm]
  rw [h1]
  have h2 : (l.map fun v => v * v / (d * d)) =
      (l.map fun v => v * v).map (fun x => x / (d * d)) := by
    rw [List.map_map]
    rfl
  rw [h2, sum_map_div]

theorem mockUnnormalized_slot2 (t : List Char) :
    (mockUnnormalized t)[2]? = some (if hasNumbers t then (0.5 : ℝ) else -0.5) := by
  unfold mockUnnormalized
  rw [List.getElem?_set_ne (by omega), List.getElem?_set_ne (by omega)]
  apply List.getElem?_set_self
  have := length_mockCharLayer t
  simp only [List.length_set, this]
  unfold EMBEDDING_DIMENSION
  omega

theorem sumSq_mockUnnormalized_pos (t : List Char) :
    0 < sumSq (mockUnnormalized t) := by
  have hmem : (if hasNumbers t then (0.5 : ℝ) else -0.5) ∈ mockUnnormalized t :=
    List.getElem?_mem (mockUnnormalized_slot2 t)
  have hsq := sq_le_sumSq hmem
  by_cases h : hasNumbers t
  · rw [if_pos h] at hsq
    nlinarith [hsq]
  · rw [if_neg h] at hsq
    nlinarith [hsq]

/-! ## Claim C3: the embedding API error path -/

/-- C3: when the external embedding API call throws, `generateEmbedding`
does not propagate the error: it returns the deterministic local fallback
vector, which is non-null (a `some`) and has exactly 1536 elements. -/
theorem c3_generateEmbedding_fallback (clientPresent : Bool) (t : List Char) :
    generateEmbedding clientPresent .threw t = some (generateMockEmbedding t) ∧
    (generateMockEmbedding t).length = EMBEDDING_DIMENSION := by
  constructor
  · unfold generateEmbedding
    cases clientPresent <;> rfl
  · exact length_generateMockEmbedding t

/-! ## Claim C5: determinism of the fallback embedding -/

/-- C5: the fallback embedding is a pure function of the input text — two
calls of `generateMockEmbedding` on identical input texts yield identical
vectors (the embedding reads no other state). -/
theorem c5_mock_embedding_deterministic (t1 t2 : List Char) (h : t1 = t2) :
    generateMockEmbedding t1 = generateMockEmbedding t2 := by
  rw [h]

/-- C5 witness: a concrete pair of identical calls. -/
theorem c5_mock_embedding_deterministic_witness :
    (['h', 'i'] : List Char) = ['h', 'i'] ∧
    generateMockEmbedding ['h', 'i'] = generateMockEmbedding ['h', 'i'] :=
  ⟨rfl, c5_mock_embedding_deterministic ['h', 'i'] ['h', 'i'] rfl⟩

/-! ## Claim C10: the zero-norm branch of the mock embedding is unreachable -/

/-- C10: for every input text, slot 2 of the unnormalized fallback vector is
`+0.5` or `-0.5`, so the pre-normalization norm is strictly positive (the
zero-norm branch of line 120 is unreachable) and the returned vector has
unit L2 norm (its sum of squares is exactly 1). -/
theorem c10_mock_embedding_unit_norm (t : List Char) :
    (mockUnnormalized t)[2]? = some (if hasNumbers t then (0.5 : ℝ) else -0.5) ∧
    0 < mockNorm t ∧
    sumSq (generateMockEmbedding t) = 1 := by
  have hpos := sumSq_mockUnnormalized_pos t
  have hnorm : 0 < mockNorm t := Real.sqrt_pos.mpr hpos
  refine ⟨mockUnnormalized_slot2 t, hnorm, ?_⟩
  unfold generateMockEmbedding
  have hfun : (fun v : ℝ => if mockNorm t > 0 then v / mockNorm t else 0) =
      fun v : ℝ => v / mockNorm t := by
    funext v
    rw [if_pos hnorm]
  rw [hfun, sumSq_map_div]
  have hself : mockNorm t * mockNorm t = sumSq (mockUnnormalized t) := by
    unfold mockNorm
    exact Real.mul_self_sqrt (sumSq_nonneg _)
  rw [hself]
  exact div_self (ne_of_gt hpos)

/-! ## Claim C1: splitText on texts shorter than the chunk size -/

set_option maxRecDepth 100000 in
/-- C1 counterexample: the claim "every text shorter than S = 1000 yields
exactly one chunk equal to the trimmed input" is false on the code. A text
of 801 identical characters is shorter than the chunk size, yet the loop
re-enters at offset `1000 - 200 = 800 < 801` and emits a second chunk; and
a single-space text (also shorter than the chunk size) trims to empty, so
the final filter yields no chunk at all. -/
theorem c1_splitText_counterexample :
    (List.replicate 801 'a').length < CHUNK_SIZE ∧
    (splitText (List.replicate 801 'a')).length = 2 ∧
    ([' '] : List Char).length < CHUNK_SIZE ∧
    splitText [' '] = [] := by
  refine ⟨by decide, by decide, by decide, by decide⟩

/-- C1 amended: for every text of length at most `S - O = 800` whose
trimmed form is non-empty, `splitText` returns exactly one chunk, and that
chunk equals the trimmed input text. -/
theorem c1_splitText_short (t : List Char)
    (hlen : t.length ≤ CHUNK_SIZE - CHUNK_OVERLAP) (hne : jsTrim t ≠ []) :
    splitText t = [jsTrim t] := by
  have hlen' : t.length ≤ 800 := by unfold CHUNK_SIZE CHUNK_OVERLAP at hlen; omega
  have ht0 : ¬ t.length = 0 := by
    intro h0
    rw [List.length_eq_zero.mp h0] at hne
    exact hne rfl
  have hpos : 0 < t.length := Nat.pos_of_ne_zero ht0
  have hend : splitEnd t 0 = CHUNK_SIZE := by
    unfold splitEnd
    rw [if_neg]
    · omega
    · unfold CHUNK_SIZE; omega
  have hnext : splitNextStart t 0 = 800 := by
    unfold splitNextStart
    rw [hend]
    unfold CHUNK_SIZE CHUNK_OVERLAP
    omega
  have hslice : jsSlice t 0 (splitEnd t 0) = t := by
    rw [hend]
    unfold jsSlice CHUNK_SIZE
    simp only [List.drop_zero]
    exact List.take_of_length_le (by omega)
  have hrest : splitTextGo t t.length 800 = [] := by
    cases hl : t.length with
    | zero => rfl
    | succ n =>
      unfold splitTextGo
      rw [if_neg]
      omega
  have hgo : splitTextGo t (t.length + 1) 0 = [jsTrim t] := by
    unfold splitTextGo
    rw [if_pos hpos, hslice, hnext, hrest]
  unfold splitText
  rw [if_neg ht0, hgo]
  have hkeep : (jsTrim t).length > 0 := List.length_pos.mpr hne
  simp [List.filter, hkeep]

/-- C1 witness: a concrete short text. -/
theorem c1_splitText_short_witness :
    (['h', 'i'] : List Char).length ≤ CHUNK_SIZE - CHUNK_OVERLAP ∧
    jsTrim ['h', 'i'] ≠ [] ∧
    splitText ['h', 'i'] = [jsTrim ['h', 'i']] :=
  ⟨by decide, by decide, c1_splitText_short ['h', 'i'] (by decide) (by decide)⟩

/-! ## Claim C9: termination of the chunking loop -/

/-- C9: whenever the loop re-enters (`start < text.length`), the start
offset strictly increases: exactly by `S - O = 800` when no boundary snap
occurs, and by at least `S / 2 - O + 1 = 301` when the window end snaps to
a break point (a snap requires the break point beyond `start + S / 2`);
consequently the loop's result is independent of any fuel bound of at least
the remaining length, i.e. the loop terminates. -/
theorem c9_splitText_terminates (t : List Char) (s : Nat) (hs : s < t.length) :
    s < splitNextStart t s ∧
    (¬ snapOccurs t s → splitNextStart t s = s + (CHUNK_SIZE - CHUNK_OVERLAP)) ∧
    (snapOccurs t s → s + (CHUNK_SIZE / 2 - CHUNK_OVERLAP + 1) ≤ splitNextStart t s) ∧
    (∀ f1 f2 : Nat, t.length ≤ s + f1 → t.length ≤ s + f2 →
      splitTextGo t f1 s = splitTextGo t f2 s) := by
  refine ⟨?_, ?_, ?_, ?_⟩
  · have := @splitNextStart_progress t s
    unfold CHUNK_SIZE CHUNK_OVERLAP at this
    omega
  · intro h
    unfold splitNextStart
    rw [splitEnd_no_snap h]
    unfold CHUNK_SIZE CHUNK_OVERLAP
    omega
  · intro _
    exact splitNextStart_progress
  · intro f1 f2 h1 h2
    exact splitTextGo_fuel_eq t f1 f2 s (by omega) (by omega)

/-- C9 witness: a concrete text and offset. -/
theorem c9_splitText_terminates_witness :
    (0 : Nat) < (['h', 'i'] : List Char).length ∧
    (0 < splitNextStart ['h', 'i'] 0 ∧
      (¬ snapOccurs ['h', 'i'] 0 →
        splitNextStart ['h', 'i'] 0 = 0 + (CHUNK_SIZE - CHUNK_OVERLAP)) ∧
      (snapOccurs ['h', 'i'] 0 →
        0 + (CHUNK_SIZE / 2 - CHUNK_OVERLAP + 1) ≤ splitNextStart ['h', 'i'] 0) ∧
      (∀ f1 f2 : Nat, (['h', 'i'] : List Char).length ≤ 0 + f1 →
        (['h', 'i'] : List Char).length ≤ 0 + f2 →
        splitTextGo ['h', 'i'] f1 0 = splitTextGo ['h', 'i'] f2 0)) :=
  ⟨by decide, c9_splitText_terminates ['h', 'i'] 0 (by decide)⟩

/-! ## Lemmas about result ranking -/

theorem rankResults_length_le (rs : List SearchResult) (limit : Nat) :
    (rankResults rs limit).length ≤ limit := by
  unfold rankResults
  exact List.length_take_le _ _

theorem rankResults_sorted (rs : List SearchResult) (limit : Nat) :
    (rankResults rs limit).Pairwise (fun a b => b.similarity ≤ a.similarity) := by
  unfold rankResults
  have hs : (rs.mergeSort (fun a b => decide (b.similarity ≤ a.similarity))).Pairwise
      (fun a b => decide (b.similarity ≤ a.similarity) = true) := by
    apply List.sorted_mergeSort
    · intro a b c hab hbc
      simp only [decide_eq_true_eq] at *
      exact le_trans hbc hab
    · intro a b
      simp only [Bool.or_eq_true, decide_eq_true_eq]
      exact le_total b.similarity a.similarity
  have hp := hs.imp (fun h => of_decide_eq_true h)
  exact hp.sublist (List.take_sublist _ _)

theorem mem_rankResults {rs : List SearchResult} {limit : Nat} {r : SearchResult}
    (h : r ∈ rankResults rs limit) : r ∈ rs := by
  unfold rankResults at h
  have h2 := (List.take_sublist _ _).subset h
  exact List.mem_mergeSort.mp h2

/-! ## Claim C4: semanticSearch returns at most limit results, sorted -/

/-- C4: for every query, optional document filter and limit, and under every
backend condition, `semanticSearch` returns at most `limit` results, sorted
non-increasing by similarity. -/
theorem c4_semanticSearch_limit_sorted (clientPresent : Bool) (o : EmbedOutcome)
    (prismaActive prismaOk : Bool) (st : VectorState) (q : List Char)
    (docFilter : Option String) (limit : Nat) :
    (semanticSearch clientPresent o prismaActive prismaOk st q docFilter limit).length
        ≤ limit ∧
    (semanticSearch clientPresent o prismaActive prismaOk st q docFilter
        limit).Pairwise (fun a b => b.similarity ≤ a.similarity) := by
  unfold semanticSearch
  cases hq : generateEmbedding clientPresent o q with
  | none => simp
  | some qe =>
    cases prismaActive with
    | false =>
      simp only [Bool.false_eq_true, if_false]
      unfold memorySemanticSearch
      exact ⟨rankResults_length_le _ _, rankResults_sorted _ _⟩
    | true =>
      cases prismaOk with
      | false =>
        simp only [if_true, Bool.false_eq_true, if_false]
        unfold memorySemanticSearch
        exact ⟨rankResults_length_le _ _, rankResults_sorted _ _⟩
      | true =>
        simp only [if_true]
        exact ⟨rankResults_length_le _ _, rankResults_sorted _ _⟩

/-! ## Claim C2: the durable search path scores only memory-backed chunks -/

theorem mem_scoreDurable {st : VectorState} {qe : List ℝ} {df : Option String}
    {r : SearchResult} (h : r ∈ scoreDurable st qe df) :
    ∃ mv, mapGet st.memoryVectors (vectorKey r.document_id r.chunk_index) = some mv := by
  unfold scoreDurable at h
  obtain ⟨c, _, hr⟩ := List.mem_filterMap.mp h
  obtain ⟨mv, hmv, hrr⟩ := Option.map_eq_some'.mp hr
  subst hrr
  exact ⟨mv, hmv⟩

/-- C2: with the durable backend active and its query succeeding, a chunk
persisted durably by `saveChunkVector` whose `(documentId, chunkIndex)` key
has no entry in the in-process vector map never appears in `semanticSearch`
results — the durable save stores no vector, and the durable search path
scores only keys present in the in-process map. -/
theorem c2_search_requires_memory_vector (st : VectorState) (d : String) (i : Nat)
    (content : List Char) (emb : List ℝ) (page : Option Nat) (now : Nat)
    (clientPresent : Bool) (o : EmbedOutcome) (q : List Char)
    (docFilter : Option String) (limit : Nat)
    (hmem : mapGet st.memoryVectors (vectorKey d i) = none) :
    mapGet (saveChunkVector true true st d content emb i page now).1.memoryVectors
        (vectorKey d i) = none ∧
    (∀ (st2 : VectorState) (qe : List ℝ) (df : Option String) (r : SearchResult),
      r ∈ scoreDurable st2 qe df →
      ∃ mv, mapGet st2.memoryVectors (vectorKey r.document_id r.chunk_index) = some mv) ∧
    ∀ r ∈ semanticSearch clientPresent o true true
        (saveChunkVector true true st d content emb i page now).1 q docFilter limit,
      ¬ (r.document_id = d ∧ r.chunk_index = i) := by
  refine ⟨hmem, fun st2 qe df r hr => mem_scoreDurable hr, ?_⟩
  · intro r hr hcontra
    obtain ⟨hd, hi⟩ := hcontra
    unfold semanticSearch at hr
    cases hq : generateEmbedding clientPresent o q with
    | none =>
      rw [hq] at hr
      simp at hr
    | some qe =>
      rw [hq] at hr
      simp only [if_true] at hr
      have hscore := mem_rankResults hr
      obtain ⟨mv, hmv⟩ := mem_scoreDurable hscore
      rw [hd, hi] at hmv
      have : mapGet st.memoryVectors (vectorKey d i) = some mv := hmv
      rw [hmem] at this
      exact Option.noConfusion this

/-- C2 witness: the empty store. -/
theorem c2_search_requires_memory_vector_witness :
    mapGet (⟨[], []⟩ : VectorState).memoryVectors (vectorKey "d" 0) = none ∧
    (mapGet (saveChunkVector true true ⟨[], []⟩ "d" ['x'] [] 0 none 0).1.memoryVectors
        (vectorKey "d" 0) = none ∧
      (∀ (st2 : VectorState) (qe : List ℝ) (df : Option String) (r : SearchResult),
        r ∈ scoreDurable st2 qe df →
        ∃ mv, mapGet st2.memoryVectors (vectorKey r.document_id r.chunk_index) = some mv) ∧
      ∀ r ∈ semanticSearch true (.api (some [])) true true
          (saveChunkVector true true ⟨[], []⟩ "d" ['x'] [] 0 none 0).1 ['q'] none 5,
        ¬ (r.document_id = "d" ∧ r.chunk_index = 0)) :=
  ⟨rfl, c2_search_requires_memory_vector ⟨[], []⟩ "d" 0 ['x'] [] none 0 true
    (.api (some [])) ['q'] none 5 rfl⟩

/-! ## Claim C6: deleting a document's vectors -/

theorem filter_erased_rows (l : List ChunkRow) (d : String) :
    (l.filter (fun c => c.document_id ≠ d)).filter (fun c => c.document_id = d) = [] := by
  rw [List.filter_eq_nil_iff]
  intro c hc
  have := List.of_mem_filter hc
  simp only [decide_eq_true_eq] at this ⊢
  exact fun h => this h

theorem filter_erased_memory (m : List (String × MemoryVector)) (d : String) :
    ((memoryDeleteDoc m d).map Prod.snd).filter (fun v => v.document_id = d) = [] := by
  rw [List.filter_eq_nil_iff]
  intro v hv
  obtain ⟨p, hp, rfl⟩ := List.mem_map.mp hv
  have := List.of_mem_filter hp
  simp only [decide_eq_true_eq] at this ⊢
  exact this

theorem memoryGetDocumentChunks_after_delete (dc : List ChunkRow)
    (m : List (String × MemoryVector)) (d : String) :
    memoryGetDocumentChunks ⟨dc, memoryDeleteDoc m d⟩ d = [] := by
  unfold memoryGetDocumentChunks
  rw [filter_erased_memory]
  simp

set_option maxRecDepth 10000 in
/-- C6 counterexample: the claim "after deleteDocumentVectors(d),
getDocumentChunks(d) returns the empty sequence" fails when the delete's
durable operation throws (only the in-process tier is cleaned, the durable
rows survive) while the subsequent read's durable query succeeds: with one
durable row for document "d", that row is still returned. -/
theorem c6_delete_counterexample :
    (deleteDocumentVectors true false
      (⟨[{ document_id := "d", content := ['x'], page_number := none,
           chunk_index := 0, token_count := 1 }], []⟩ : VectorState) "d").2 = true ∧
    getDocumentChunks true true
      (deleteDocumentVectors true false
        (⟨[{ document_id := "d", content := ['x'], page_number := none,
             chunk_index := 0, token_count := 1 }], []⟩ : VectorState) "d").1 "d" ≠ [] := by
  refine ⟨rfl, ?_⟩
  simp [deleteDocumentVectors, getDocumentChunks, memoryDeleteDoc, sortByChunkIndexRows,
    List.filter]

/-- C6 amended: `deleteDocumentVectors` reports success on every call
(idempotence, including repeated deletes and absent documents), and after a
delete, `getDocumentChunks` on the same document returns the empty sequence
in every backend condition except the one the counterexample exhibits (the
durable delete threw while the subsequent durable read succeeded). -/
theorem c6_delete_then_empty (prismaActive prismaOkDel prismaOkGet prismaOk2 : Bool)
    (st : VectorState) (d : String)
    (h : ¬ (prismaActive = true ∧ prismaOkDel = false ∧ prismaOkGet = true)) :
    (deleteDocumentVectors prismaActive prismaOkDel st d).2 = true ∧
    (deleteDocumentVectors prismaActive prismaOk2
        (deleteDocumentVectors prismaActive prismaOkDel st d).1 d).2 = true ∧
    getDocumentChunks prismaActive prismaOkGet
        (deleteDocumentVectors prismaActive prismaOkDel st d).1 d = [] := by
  refine ⟨?_, ?_, ?_⟩
  · unfold deleteDocumentVectors
    cases prismaActive <;> cases prismaOkDel <;> rfl
  · unfold deleteDocumentVectors
    cases prismaActive <;> cases prismaOk2 <;> cases prismaOkDel <;> rfl
  · cases prismaActive with
    | false =>
      unfold deleteDocumentVectors getDocumentChunks
      cases prismaOkDel <;> simp only [Bool.false_eq_true, if_false] <;>
        exact memoryGetDocumentChunks_after_delete _ _ _
    | true =>
      cases prismaOkDel with
      | true =>
        unfold deleteDocumentVectors
        simp only [if_true]
        cases prismaOkGet with
        | true =>
          unfold getDocumentChunks
          simp only [if_true]
          rw [filter_erased_rows]
          simp [sortByChunkIndexRows]
        | false =>
          unfold getDocumentChunks
          simp only [if_true, Bool.false_eq_true, if_false]
          exact memoryGetDocumentChunks_after_delete _ _ _
      | false =>
        have hget : prismaOkGet = false := by
          cases prismaOkGet with
          | true => exact absurd ⟨rfl, rfl, rfl⟩ h
          | false => rfl
        subst hget
        unfold deleteDocumentVectors getDocumentChunks
        simp only [if_true, Bool.false_eq_true, if_false]
        exact memoryGetDocumentChunks_after_delete _ _ _

/-- C6 witness: a concrete store with one durable row and one memory entry
for the document, deleted with both tiers healthy. -/
theorem c6_delete_then_empty_witness :
    ¬ ((true : Bool) = true ∧ (true : Bool) = false ∧ (true : Bool) = true) ∧
    ((deleteDocumentVectors true true
        (⟨[{ document_id := "d", content := ['x'], page_number := none,
             chunk_index := 0, token_count := 1 }], []⟩ : VectorState) "d").2 = true ∧
     (deleteDocumentVectors true true
        (deleteDocumentVectors true true
          (⟨[{ document_id := "d", content := ['x'], page_number := none,
               chunk_index := 0, token_count := 1 }], []⟩ : VectorState) "d").1 "d").2 = true ∧
     getDocumentChunks true true
        (deleteDocumentVectors true true
          (⟨[{ document_id := "d", content := ['x'], page_number := none,
               chunk_index := 0, token_count := 1 }], []⟩ : VectorState) "d").1 "d" = []) :=
  ⟨by decide, c6_delete_then_empty true true true true
    (⟨[{ document_id := "d", content := ['x'], page_number := none,
         chunk_index := 0, token_count := 1 }], []⟩ : VectorState) "d" (by decide)⟩

/-! ## Claim C7: per-file partial-failure semantics of processJob -/

theorem processJob_status_binary (files : List FileDescriptor) (env : Nat → FileOutcome) :
    ∀ r ∈ files.enum.map (fun p => processFile p.2 (env p.1)),
      r.status = "completed" ∨ r.status = "failed" := by
  intro r hr
  obtain ⟨⟨i, f⟩, _, rfl⟩ := List.mem_map.mp hr
  cases env i <;> simp [processFile]

theorem filter_status_partition (l : List FileResult)
    (h : ∀ r ∈ l, r.status = "completed" ∨ r.status = "failed") :
    (l.filter (fun r => r.status = "completed")).length +
      (l.filter (fun r => r.status = "failed")).length = l.length := by
  induction l with
  | nil => simp
  | cons x xs ih =>
    have hx := h x (List.mem_cons_self x xs)
    have hxs := fun r hr => h r (List.mem_cons_of_mem x hr)
    have hih := ih hxs
    rcases hx with hc | hf
    · simp only [List.filter_cons, hc]
      norm_num
      rw [if_neg (by decide)]
      omega
    · simp only [List.filter_cons, hf]
      norm_num
      rw [if_neg (by decide)]
      omega

/-- C7: a thrown per-file failure does not abort the job: file `i`'s result
entry is exactly `processFile fileᵢ (env i)` for every index — one entry
per file, in order, and a thrown outcome yields a `failed` entry carrying
the error message while the loop continues — `processedFiles + failedFiles
= totalFiles`, and the final progress callback value is 100. -/
theorem c7_processJob_partial_failure (batchId : Option String)
    (files : List FileDescriptor) (env : Nat → FileOutcome) :
    (processJob batchId files env).1.results.length = files.length ∧
    (∀ i f, files[i]? = some f →
      (processJob batchId files env).1.results[i]? = some (processFile f (env i))) ∧
    (∀ f msg, processFile f (.threw msg) =
      { fileId := f.fileId, originalName := f.originalName, status := "failed"
        document := none, vectorized := none, error := some msg }) ∧
    (processJob batchId files env).1.processedFiles +
        (processJob batchId files env).1.failedFiles =
      (processJob batchId files env).1.totalFiles ∧
    (processJob batchId files env).2.getLast? = some 100 := by
  refine ⟨?_, ?_, ?_, ?_, ?_⟩
  · simp [processJob]
  · intro i f hf
    simp only [processJob, List.getElem?_map, List.getElem?_enum, hf, Option.map_some']
  · intro f msg
    rfl
  · have hbin := processJob_status_binary files env
    have := filter_status_partition _ hbin
    simpa [processJob] using this
  · simp only [processJob]
    exact List.getLast?_concat _

/-- C7 witness: a concrete two-file job whose second file throws. -/
theorem c7_processJob_partial_failure_witness :
    (processJob (some "b") sampleFiles sampleEnv).1.results.length = sampleFiles.length ∧
    (∀ i f, sampleFiles[i]? = some f →
      (processJob (some "b") sampleFiles sampleEnv).1.results[i]? =
        some (processFile f (sampleEnv i))) ∧
    (∀ f msg, processFile f (.threw msg) =
      { fileId := f.fileId, originalName := f.originalName, status := "failed"
        document := none, vectorized := none, error := some msg }) ∧
    (processJob (some "b") sampleFiles sampleEnv).1.processedFiles +
        (processJob (some "b") sampleFiles sampleEnv).1.failedFiles =
      (processJob (some "b") sampleFiles sampleEnv).1.totalFiles ∧
    (processJob (some "b") sampleFiles sampleEnv).2.getLast? = some 100 :=
  c7_processJob_partial_failure (some "b") sampleFiles sampleEnv

/-! ## Claim C8: queue stats counts sum to total -/

theorem statTick_sum (s : QueueStats) (j : JobStatus)
    (h : s.waiting + s.active + s.completed + s.failed = s.total) :
    (statTick s j).waiting + (statTick s j).active + (statTick s j).completed +
      (statTick s j).failed = (statTick s j).total := by
  cases j <;> simp [statTick] <;> omega

theorem getQueueStats_sum (jobs : List MemoryJob) :
    (getQueueStats jobs).waiting + (getQueueStats jobs).active +
      (getQueueStats jobs).completed + (getQueueStats jobs).failed =
    (getQueueStats jobs).total := by
  unfold getQueueStats
  suffices h : ∀ s0 : QueueStats,
      s0.waiting + s0.active + s0.completed + s0.failed = s0.total →
      (jobs.foldl (fun s j => statTick s j.status) s0).waiting +
        (jobs.foldl (fun s j => statTick s j.status) s0).active +
        (jobs.foldl (fun s j => statTick s j.status) s0).completed +
        (jobs.foldl (fun s j => statTick s j.status) s0).failed =
      (jobs.foldl (fun s j => statTick s j.status) s0).total by
    exact h ⟨0, 0, 0, 0, 0⟩ rfl
  induction jobs with
  | nil => intro s0 h0; simpa using h0
  | cons x xs ih =>
    intro s0 h0
    simp only [List.foldl_cons]
    exact ih _ (statTick_sum s0 x.status h0)

/-- C8: after any sequence of submit, activate, complete, fail, cancel and
cleanup operations on the in-process job table, `getQueueStats` returns
counts with `waiting + active + completed + failed = total`. -/
theorem c8_queueStats_sum (ops : List QueueOp) :
    (getQueueStats (ops.foldl applyOp [])).waiting +
      (getQueueStats (ops.foldl applyOp [])).active +
      (getQueueStats (ops.foldl applyOp [])).completed +
      (getQueueStats (ops.foldl applyOp [])).failed =
    (getQueueStats (ops.foldl applyOp [])).total :=
  getQueueStats_sum _

end ArgCode
